import Mathlib

/-!
Shallow embedding of the `log_hooks` Go package (src/log_hooks.go): logrus
hooks that mirror high-severity log records to e-mail (with a process-wide
suppression store) and to stderr. External collaborators (the SMTP client,
`net` dial, `mail.ParseAddress`, `logrus.ParseLevel`, the text formatter,
the runtime stack capture and the system clock) are modelled as explicit
parameters: each fallible external call's outcome is a field of an
environment record, and every clock read is an explicit `Nat` instant in
nanoseconds, matching Go durations (`time.Minute = 60000000000 ns`).
-/

namespace LogHooks

/-- The seven logrus severity levels (external collaborator `logrus.Level`). -/
inductive Level where
  | panic
  | fatal
  | error
  | warn
  | info
  | debug
  | trace
deriving DecidableEq, Repr, Fintype

/-- `logrus.Level.String()`: note logrus renders `WarnLevel` as "warning". -/
def levelString : Level → String
  | Level.panic => "panic"
  | Level.fatal => "fatal"
  | Level.error => "error"
  | Level.warn => "warning"
  | Level.info => "info"
  | Level.debug => "debug"
  | Level.trace => "trace"

/-- A wall-clock instant as used by `entry.Time.Format("2006-01-02 15:04:05-0700")`:
calendar fields plus a time-zone offset (sign, hours, minutes). -/
structure GoTime where
  year : Nat
  month : Nat
  day : Nat
  hour : Nat
  minute : Nat
  second : Nat
  tzNeg : Bool
  tzHours : Nat
  tzMinutes : Nat
deriving DecidableEq, Repr

def pad2 (n : Nat) : String :=
  if n < 10 then "0" ++ toString n else toString n

def pad4 (n : Nat) : String :=
  if n < 10 then "000" ++ toString n
  else if n < 100 then "00" ++ toString n
  else if n < 1000 then "0" ++ toString n
  else toString n

/-- Go layout "2006-01-02 15:04:05-0700". -/
def formatTime (t : GoTime) : String :=
  pad4 t.year ++ "-" ++ pad2 t.month ++ "-" ++ pad2 t.day ++ " " ++
  pad2 t.hour ++ ":" ++ pad2 t.minute ++ ":" ++ pad2 t.second ++
  (if t.tzNeg then "-" else "+") ++ pad2 t.tzHours ++ pad2 t.tzMinutes

/-- JSON values that can appear in `logrus.Fields` for our purposes. -/
inductive JValue where
  | str (s : String)
  | num (n : Int)
deriving DecidableEq, Repr

def hexDigit (n : Nat) : Char :=
  if n < 10 then Char.ofNat (48 + n) else Char.ofNat (87 + n)

/-- Escaping performed by Go `encoding/json` on one character of a string
(HTML escaping of angle brackets and ampersand is on by default). -/
def jsonEscapeChar (c : Char) : String :=
  if c = '"' then "\\\""
  else if c = '\\' then "\\\\"
  else if c = '\n' then "\\n"
  else if c = '\r' then "\\r"
  else if c = '\t' then "\\t"
  else if c = '<' then "\\u003c"
  else if c = '>' then "\\u003e"
  else if c = '&' then "\\u0026"
  else if c.toNat < 32 then
    "\\u00" ++ String.singleton (hexDigit (c.toNat / 16)) ++
      String.singleton (hexDigit (c.toNat % 16))
  else String.singleton c

def jsonEscape (s : String) : String :=
  String.join (s.data.map jsonEscapeChar)

def jsonValueString : JValue → String
  | JValue.str s => "\"" ++ jsonEscape s ++ "\""
  | JValue.num n => toString n

/-- Lexicographic comparison of character lists by codepoint; on UTF-8
strings this coincides with the bytewise order Go `sort.Strings` uses. -/
def leKeyList : List Char → List Char → Bool
  | [], _ => true
  | _ :: _, [] => false
  | c :: cs, d :: ds =>
    if c.toNat < d.toNat then true
    else if d.toNat < c.toNat then false
    else leKeyList cs ds

def leKey (s t : String) : Bool :=
  leKeyList s.data t.data

def insertByKey (p : String × JValue) : List (String × JValue) → List (String × JValue)
  | [] => [p]
  | q :: qs => if leKey p.1 q.1 then p :: q :: qs else q :: insertByKey p qs

/-- Go marshals a map with its keys in sorted (bytewise ascending) order. -/
def sortByKey : List (String × JValue) → List (String × JValue)
  | [] => []
  | p :: ps => insertByKey p (sortByKey ps)

/-- `json.MarshalIndent(fields, "", "\t")`: sorted keys, tab indentation,
a space after each colon, as Go `encoding/json` produces. -/
def marshalIndent (data : List (String × JValue)) : String :=
  match sortByKey data with
  | [] => "\x7b\x7d"
  | ps =>
    "\x7b\n" ++
      String.intercalate ",\n"
        (ps.map (fun p => "\t\"" ++ jsonEscape p.1 ++ "\": " ++ jsonValueString p.2)) ++
      "\n\x7d"

/-- A logrus entry as consumed by the hooks: message text, severity,
record timestamp and structured field mapping. -/
structure Entry where
  message : String
  level : Level
  time : GoTime
  data : List (String × JValue)

/-- `mailErrStore`: map from alert key to last-sent instant (ns), plus the
global sentinel key. The Go map is modelled as a total lookup function. -/
structure MailErrStore where
  errToTime : String → Option Nat
  generalErr : String

/-- The package-level `errStore` initial value:
empty map, general key "general". -/
def errStoreInit : MailErrStore :=
  { errToTime := fun _ => none, generalErr := "general" }

/-- `time.Minute` in nanoseconds. -/
def timeMinute : Nat := 60000000000

/-- `saveErrorTime`: stamp `now` against `key` (map write under the mutex). -/
def saveErrorTime (es : MailErrStore) (key : String) (now : Nat) : MailErrStore :=
  { es with errToTime := fun k => if k = key then some now else es.errToTime k }

/-- `markErrAsSent`: stamp the general key, then the entry message key. -/
def markErrAsSent (es : MailErrStore) (msg : String) (now : Nat) : MailErrStore :=
  saveErrorTime (saveErrorTime es es.generalErr now) msg now

/-- `checkErrorTime`: false when an entry exists and
`errTime.Add(duration).After(now)`, true otherwise. -/
def checkErrorTime (es : MailErrStore) (key : String) (dur : Nat) (now : Nat) : Bool :=
  match es.errToTime key with
  | some t => if now < t + dur then false else true
  | none => true

/-- `canSendMail`: the general key must pass a 1-minute window and the
message key a 10-minute window. -/
def canSendMail (es : MailErrStore) (entry : Entry) (now : Nat) : Bool :=
  if checkErrorTime es es.generalErr timeMinute now = false then false
  else if checkErrorTime es entry.message (10 * timeMinute) now = false then false
  else true

/-- `MailHook`: unauthenticated mail sink configuration. -/
structure MailHook where
  appName : String
  host : String
  port : Nat
  sender : String
  recipient : String
deriving DecidableEq, Repr

/-- `MailAuthHook`: authenticated mail sink configuration. -/
structure MailAuthHook where
  appName : String
  host : String
  port : Nat
  sender : String
  recipient : String
  username : String
  password : String
deriving DecidableEq, Repr

/-- Outcomes of the external SMTP calls made by the two Fire methods:
`smtp.Dial`, `client.Mail`, `client.Rcpt`, `client.Data`, the payload
write, and the one-shot `smtp.SendMail`. -/
structure SmtpEnv where
  dialOk : Bool
  mailOk : Bool
  rcptOk : Bool
  dataOk : Bool
  writeOk : Bool
  sendMailOk : Bool
deriving DecidableEq, Repr

/-- Observable network actions of a Fire call, in order. -/
inductive SmtpAction where
  | dial
  | mailCmd
  | rcptCmd
  | dataCmd
  | writeData
  | close
  | sendMail
deriving DecidableEq, Repr

/-- The error a Fire call returns, named after the failing step. -/
inductive FireErr where
  | dialErr
  | mailErr
  | rcptErr
  | dataErr
  | writeErr
  | sendMailErr
deriving DecidableEq, Repr

/-- `MailHook.Fire`: dial first; on a suppressed entry return nil after
only dial and close; otherwise MAIL, RCPT, DATA, and only after DATA
succeeds stamp the store, then write the payload. Returns the result,
the store after the call, and the network action trace. -/
def mailHookFire (env : SmtpEnv) (entry : Entry) (es : MailErrStore) (now : Nat) :
    Except FireErr Unit × MailErrStore × List SmtpAction :=
  if env.dialOk = false then
    (Except.error FireErr.dialErr, es, [SmtpAction.dial])
  else if canSendMail es entry now = false then
    (Except.ok (), es, [SmtpAction.dial, SmtpAction.close])
  else if env.mailOk = false then
    (Except.error FireErr.mailErr, es,
      [SmtpAction.dial, SmtpAction.mailCmd, SmtpAction.close])
  else if env.rcptOk = false then
    (Except.error FireErr.rcptErr, es,
      [SmtpAction.dial, SmtpAction.mailCmd, SmtpAction.rcptCmd, SmtpAction.close])
  else if env.dataOk = false then
    (Except.error FireErr.dataErr, es,
      [SmtpAction.dial, SmtpAction.mailCmd, SmtpAction.rcptCmd, SmtpAction.dataCmd,
        SmtpAction.close])
  else
    let es2 := markErrAsSent es entry.message now
    if env.writeOk = false then
      (Except.error FireErr.writeErr, es2,
        [SmtpAction.dial, SmtpAction.mailCmd, SmtpAction.rcptCmd, SmtpAction.dataCmd,
          SmtpAction.writeData, SmtpAction.close])
    else
      (Except.ok (), es2,
        [SmtpAction.dial, SmtpAction.mailCmd, SmtpAction.rcptCmd, SmtpAction.dataCmd,
          SmtpAction.writeData, SmtpAction.close])

/-- `MailAuthHook.Fire`: suppression check first (nil on a miss), then the
store is stamped, then a single `smtp.SendMail` call performs the whole
transaction. -/
def mailAuthHookFire (env : SmtpEnv) (entry : Entry) (es : MailErrStore) (now : Nat) :
    Except FireErr Unit × MailErrStore × List SmtpAction :=
  if canSendMail es entry now = false then
    (Except.ok (), es, [])
  else
    let es2 := markErrAsSent es entry.message now
    if env.sendMailOk = false then
      (Except.error FireErr.sendMailErr, es2, [SmtpAction.sendMail])
    else
      (Except.ok (), es2, [SmtpAction.sendMail])

/-- `createMessage`: subject "appName - levelString", body with the
formatted time after "TIME: ", the message after "MESSAGE: ", the indented
JSON field dump after "DATA: " and the captured stack trace (an external
input, `debug.Stack()`), assembled as "Subject: subject CRLF CRLF body". -/
def createMessage (entry : Entry) (appname : String) (stack : String) : String :=
  "Subject: " ++ (appname ++ " - " ++ levelString entry.level) ++ "\r\n\r\n" ++
  ("TIME: " ++ formatTime entry.time ++ "\n" ++
   "MESSAGE: " ++ entry.message ++ "\n\n" ++
   "DATA: " ++ marshalIndent entry.data ++ "\n\n" ++
   "STACKTRACE: \n" ++ stack)

/-- Outcome of the external `textFormater.Format(entry)` call (a formatted
line or an error message) and of the ignored stderr write. -/
structure StderrEnv where
  formatResult : Except String String
  writeOk : Bool

/-- `StderrHook.Fire`: format the entry; on success write the line followed
by the stack trace to stderr ignoring the write result; return the
formatting error (nil when formatting succeeded). Second component: the
strings written to stderr. -/
def stderrHookFire (env : StderrEnv) (stack : String) :
    Except String Unit × List String :=
  match env.formatResult with
  | Except.error e => (Except.error e, [])
  | Except.ok line => (Except.ok (), [line ++ stack])

/-- `MailHook.Levels()`. -/
def mailHookLevels : List Level :=
  [Level.warn, Level.panic, Level.fatal, Level.error]

/-- `MailAuthHook.Levels()`. -/
def mailAuthHookLevels : List Level :=
  [Level.warn, Level.panic, Level.fatal, Level.error]

/-- `StderrHook.Levels()`. -/
def stderrHookLevels : List Level :=
  [Level.warn, Level.panic, Level.fatal, Level.error]

/-- The logrus dispatcher fires a hook on an entry exactly when the entry
level is in the list the hook returns from Levels(). -/
def hookFires (levels : List Level) (s : Level) : Bool :=
  levels.contains s

/-- Outcomes of the external checks used at construction and setup time:
`net.DialTimeout("tcp", host:port, 3s)` and `mail.ParseAddress`. -/
structure NetEnv where
  dialOk : String → Nat → Bool
  validAddr : String → Bool

/-- Errors surfaced by `UsefulSetupLogrus` and `NewMailHook`, named after
the failing external call. -/
inductive SetupErr where
  | splitHostPortErr
  | atoiErr
  | parseLevelErr
  | dialErr
  | senderAddrErr
  | recipientAddrErr
deriving DecidableEq, Repr

/-- `checkMailHookParams`: dial the host within the 3-second timeout, then
parse the sender address, then the recipient address; first failure wins. -/
def checkMailHookParams (net : NetEnv) (host : String) (port : Nat)
    (sender : String) (recipient : String) : Option SetupErr :=
  if net.dialOk host port = false then some SetupErr.dialErr
  else if net.validAddr sender = false then some SetupErr.senderAddrErr
  else if net.validAddr recipient = false then some SetupErr.recipientAddrErr
  else none

/-- `NewMailHook`: validate the parameters, then build the hook carrying
exactly the given configuration. -/
def newMailHook (net : NetEnv) (appname : String) (host : String) (port : Nat)
    (sender : String) (recipient : String) : Except SetupErr MailHook :=
  match checkMailHookParams net host port sender recipient with
  | some e => Except.error e
  | none =>
    Except.ok
      { appName := appname, host := host, port := port,
        sender := sender, recipient := recipient }

/-- Where the logger writes its primary output. -/
inductive OutStream where
  | stdout
  | stderr
  | other
deriving DecidableEq, Repr

/-- The logrus formatter installed on the logger. -/
inductive FormatterKind where
  | text (fullTimestamp : Bool)
  | json
  | defaultFmt
deriving DecidableEq, Repr

/-- Which hook was registered via `log.Hooks.Add`. -/
inductive HookKind where
  | stderrHook
  | mailHook
deriving DecidableEq, Repr

/-- The mutable logger fields `UsefulSetupLogrus` touches. -/
structure LoggerState where
  out : OutStream
  level : Level
  formatter : FormatterKind
  hooks : List HookKind
deriving DecidableEq, Repr

/-- Outcomes of the external calls made by `UsefulSetupLogrus`:
`net.SplitHostPort`, `strconv.Atoi`, `logrus.ParseLevel`, and the network
environment for `NewMailHook`. -/
structure SetupEnv where
  splitHostPort : String → Option (String × String)
  atoi : String → Option Nat
  parseLevel : String → Option Level
  net : NetEnv

/-- `UsefulSetupLogrus`: set Out to stdout, split the endpoint, parse the
port and the level, set the level, add the stderr hook, build and add the
mail hook, then install the JSON or full-timestamp text formatter.
Returns the error (none on success) and the logger state after the call. -/
def usefulSetupLogrus (env : SetupEnv) (st : LoggerState) (mailHostPort : String)
    (format : String) (level : String) (appName : String)
    (sender : String) (recipient : String) : Option SetupErr × LoggerState :=
  let st1 := { st with out := OutStream.stdout }
  match env.splitHostPort mailHostPort with
  | none => (some SetupErr.splitHostPortErr, st1)
  | some (host, strPort) =>
    match env.atoi strPort with
    | none => (some SetupErr.atoiErr, st1)
    | some port =>
      match env.parseLevel level with
      | none => (some SetupErr.parseLevelErr, st1)
      | some lvl =>
        let st2 := { st1 with level := lvl }
        let st3 := { st2 with hooks := st2.hooks ++ [HookKind.stderrHook] }
        match newMailHook env.net appName host port sender recipient with
        | Except.error e => (some e, st3)
        | Except.ok _ =>
          let st4 := { st3 with hooks := st3.hooks ++ [HookKind.mailHook] }
          let st5 :=
            if format = "json" then { st4 with formatter := FormatterKind.json }
            else { st4 with formatter := FormatterKind.text true }
          (none, st5)

/-- Bool test: `pat` is a prefix of `s` (on character lists). -/
def isPrefixList : List Char → List Char → Bool
  | [], _ => true
  | _ :: _, [] => false
  | p :: ps, c :: cs => p = c && isPrefixList ps cs

/-- Bool test: `pat` occurs as a contiguous substring of `s`. -/
def containsSubList (pat : List Char) : List Char → Bool
  | [] => isPrefixList pat []
  | c :: cs => isPrefixList pat (c :: cs) || containsSubList pat cs

/-- Bool test: `pat` occurs as a contiguous substring of `s`. -/
def strContains (s pat : String) : Bool :=
  containsSubList pat.data s.data

/-- A sample entry used for concrete evaluations. -/
def exEntry : Entry :=
  { message := "boom", level := Level.error,
    time := ⟨2024, 5, 6, 7, 8, 9, false, 3, 0⟩, data := [] }

/-- The entry of the round-trip example: fields user = "a", count = 3. -/
def exEntryRt : Entry :=
  { message := "boom", level := Level.error,
    time := ⟨2024, 5, 6, 7, 8, 9, false, 3, 0⟩,
    data := [("user", JValue.str "a"), ("count", JValue.num 3)] }

/-- A sample captured stack trace text. -/
def exStack : String := "goroutine 1 [running]:"

/-- SMTP environment where every step succeeds. -/
def envAllOk : SmtpEnv := ⟨true, true, true, true, true, true⟩

/-- SMTP environment where the server refuses the RCPT command. -/
def envRcptFail : SmtpEnv := ⟨true, true, false, true, true, true⟩

/-- SMTP environment where the initial dial fails. -/
def envDialFail : SmtpEnv := ⟨false, true, true, true, true, true⟩

/-- A store whose general key was stamped at instant 0: any entry is
suppressed before instant `timeMinute`. -/
def esSup : MailErrStore :=
  { errToTime := fun k => if k = "general" then some 0 else none,
    generalErr := "general" }

/-- A logger state with the logrus defaults (stderr output, info level,
default formatter, no hooks). -/
def st0 : LoggerState :=
  { out := OutStream.stderr, level := Level.info,
    formatter := FormatterKind.defaultFmt, hooks := [] }

/-- Setup environment in which every external call succeeds except the
construction-time dial to the mail endpoint. -/
def envMailFail : SetupEnv :=
  { splitHostPort := fun _ => some ("mail.host", "25"),
    atoi := fun _ => some 25,
    parseLevel := fun _ => some Level.debug,
    net := { dialOk := fun _ _ => false, validAddr := fun _ => true } }

/-- Stderr environment in which the text formatter fails. -/
def envFmtFail : StderrEnv :=
  { formatResult := Except.error "format failure", writeOk := true }

theorem markErrAsSent_generalErr (es : MailErrStore) (msg : String) (now : Nat) :
    (markErrAsSent es msg now).generalErr = es.generalErr := rfl

theorem markErrAsSent_lookup_general (es : MailErrStore) (msg : String) (now : Nat) :
    (markErrAsSent es msg now).errToTime es.generalErr = some now := by
  unfold markErrAsSent saveErrorTime
  by_cases h : es.generalErr = msg <;> simp [h]

theorem markErrAsSent_lookup_msg (es : MailErrStore) (msg : String) (now : Nat) :
    (markErrAsSent es msg now).errToTime msg = some now := by
  unfold markErrAsSent saveErrorTime
  simp

/-- After a mark at instant `t`, the global 1-minute window suppresses
every entry before `t + timeMinute`. -/
theorem canSendMail_markErrAsSent_global (es : MailErrStore) (msg : String)
    (e : Entry) (t t' : Nat) (h : t' < t + timeMinute) :
    canSendMail (markErrAsSent es msg t) e t' = false := by
  have hg : (markErrAsSent es msg t).errToTime (markErrAsSent es msg t).generalErr
      = some t := by
    rw [markErrAsSent_generalErr]
    exact markErrAsSent_lookup_general es msg t
  unfold canSendMail checkErrorTime
  rw [hg]
  simp [h]

/-- After a mark at instant `t`, an entry with the marked message text is
suppressed before `t + 10 * timeMinute`. -/
theorem canSendMail_markErrAsSent_msg (es : MailErrStore) (msg : String)
    (e : Entry) (t t' : Nat) (hmsg : e.message = msg)
    (h : t' < t + 10 * timeMinute) :
    canSendMail (markErrAsSent es msg t) e t' = false := by
  have hm : (markErrAsSent es msg t).errToTime e.message = some t := by
    rw [hmsg]
    exact markErrAsSent_lookup_msg es msg t
  have h2 : checkErrorTime (markErrAsSent es msg t) e.message (10 * timeMinute) t'
      = false := by
    unfold checkErrorTime
    rw [hm]
    simp [h]
  unfold canSendMail
  rw [h2]
  simp

/-- On a permitted entry with dial, MAIL, RCPT and DATA all succeeding,
the store after `MailHook.Fire` is the marked store (whatever the payload
write did). -/
theorem mailHookFire_store_after_data (env : SmtpEnv) (e : Entry)
    (es : MailErrStore) (t : Nat) (hcan : canSendMail es e t = true)
    (hd : env.dialOk = true) (hm : env.mailOk = true) (hr : env.rcptOk = true)
    (hdata : env.dataOk = true) :
    (mailHookFire env e es t).2.1 = markErrAsSent es e.message t := by
  simp [mailHookFire, hcan, hd, hm, hr, hdata]
  split <;> rfl

/-- On a permitted entry the store after `MailAuthHook.Fire` is the marked
store (whatever `smtp.SendMail` did). -/
theorem mailAuthHookFire_store_marked (env : SmtpEnv) (e : Entry)
    (es : MailErrStore) (t : Nat) (hcan : canSendMail es e t = true) :
    (mailAuthHookFire env e es t).2.1 = markErrAsSent es e.message t := by
  simp [mailAuthHookFire, hcan]
  split <;> rfl

/-- Claim C1, counterexample: on the very first entry (empty store) a RCPT
refusal makes `MailHook.Fire` return a delivery error, yet neither
suppression key is stamped and an immediately following identical attempt
is still permitted (`canSendMail` returns true), contrary to the claim. -/
theorem rcptFailureDoesNotStamp :
    (mailHookFire envRcptFail exEntry errStoreInit 0).1 = Except.error FireErr.rcptErr ∧
    canSendMail (mailHookFire envRcptFail exEntry errStoreInit 0).2.1 exEntry 0 = true ∧
    (mailHookFire envRcptFail exEntry errStoreInit 0).2.1.errToTime "general" = none ∧
    (mailHookFire envRcptFail exEntry errStoreInit 0).2.1.errToTime "boom" = none := by
  refine ⟨rfl, by decide, rfl, rfl⟩

/-- Claim C1, amended: `MailAuthHook.Fire` stamps both suppression keys
before the transaction, so any delivery failure leaves the next identical
attempt suppressed; `MailHook.Fire` stamps only after MAIL, RCPT and DATA
succeed, so a failure while writing the payload still suppresses the next
attempt, but a RCPT refusal leaves the store unchanged. -/
theorem optimisticMarking_amended :
    ∀ (env : SmtpEnv) (e : Entry) (es : MailErrStore) (t t' : Nat),
      canSendMail es e t = true → t' < t + timeMinute →
      (env.sendMailOk = false →
        (mailAuthHookFire env e es t).1 = Except.error FireErr.sendMailErr ∧
        canSendMail (mailAuthHookFire env e es t).2.1 e t' = false) ∧
      (env.dialOk = true → env.mailOk = true → env.rcptOk = true →
          env.dataOk = true → env.writeOk = false →
        (mailHookFire env e es t).1 = Except.error FireErr.writeErr ∧
        canSendMail (mailHookFire env e es t).2.1 e t' = false) ∧
      (env.dialOk = true → env.mailOk = true → env.rcptOk = false →
        (mailHookFire env e es t).1 = Except.error FireErr.rcptErr ∧
        (mailHookFire env e es t).2.1 = es) := by
  intro env e es t t' hcan hlt
  refine ⟨fun hsm => ⟨?_, ?_⟩, fun hd hm hr hdata hw => ⟨?_, ?_⟩, fun hd hm hr => ⟨?_, ?_⟩⟩
  · simp [mailAuthHookFire, hcan, hsm]
  · rw [mailAuthHookFire_store_marked env e es t hcan]
    exact canSendMail_markErrAsSent_global es e.message e t t' hlt
  · simp [mailHookFire, hcan, hd, hm, hr, hdata, hw]
  · rw [mailHookFire_store_after_data env e es t hcan hd hm hr hdata]
    exact canSendMail_markErrAsSent_global es e.message e t t' hlt
  · simp [mailHookFire, hcan, hd, hm, hr]
  · simp [mailHookFire, hcan, hd, hm, hr]

/-- Claim C1, witness: concrete instantiation of the amended theorem at the
authenticated hook with a failing `smtp.SendMail`. -/
theorem optimisticMarking_amended_witness :
    (mailAuthHookFire ⟨true, true, true, true, false, false⟩ exEntry errStoreInit 0).1
        = Except.error FireErr.sendMailErr ∧
    canSendMail
        (mailAuthHookFire ⟨true, true, true, true, false, false⟩ exEntry errStoreInit 0).2.1
        exEntry 0 = false :=
  (optimisticMarking_amended ⟨true, true, true, true, false, false⟩ exEntry errStoreInit 0 0
    (by decide) (by decide)).1 rfl

/-- Claim C2, counterexample: with the general key freshly stamped the
entry is suppressed, yet `MailHook.Fire` still dials the SMTP server (the
dial precedes the suppression check), contrary to "no SMTP network
activity, no dial". -/
theorem suppressedFireStillDials :
    canSendMail esSup exEntry 30 = false ∧
    (mailHookFire envAllOk exEntry esSup 30).2.2 = [SmtpAction.dial, SmtpAction.close] ∧
    SmtpAction.dial ∈ (mailHookFire envAllOk exEntry esSup 30).2.2 := by
  refine ⟨by decide, by decide, by decide⟩

/-- Claim C2, amended: on a suppressed entry (and a successful dial)
`MailHook.Fire` opens and closes the connection but issues no envelope
command (no MAIL, RCPT, DATA or payload write), returns nil and leaves the
store unchanged; the dial itself does happen, before the check. -/
theorem suppressedFire_noEnvelope :
    ∀ (env : SmtpEnv) (e : Entry) (es : MailErrStore) (t : Nat),
      canSendMail es e t = false → env.dialOk = true →
      mailHookFire env e es t = (Except.ok (), es, [SmtpAction.dial, SmtpAction.close]) ∧
      SmtpAction.mailCmd ∉ (mailHookFire env e es t).2.2 ∧
      SmtpAction.rcptCmd ∉ (mailHookFire env e es t).2.2 ∧
      SmtpAction.dataCmd ∉ (mailHookFire env e es t).2.2 ∧
      SmtpAction.writeData ∉ (mailHookFire env e es t).2.2 := by
  intro env e es t hcan hd
  have hfire :
      mailHookFire env e es t = (Except.ok (), es, [SmtpAction.dial, SmtpAction.close]) := by
    simp [mailHookFire, hcan, hd]
  refine ⟨hfire, ?_, ?_, ?_, ?_⟩ <;> rw [hfire] <;> simp

/-- Claim C2, witness: concrete instantiation of the amended theorem at a
store whose general key was stamped 30 ns earlier. -/
theorem suppressedFire_noEnvelope_witness :
    mailHookFire envAllOk exEntry esSup 30
        = (Except.ok (), esSup, [SmtpAction.dial, SmtpAction.close]) :=
  (suppressedFire_noEnvelope envAllOk exEntry esSup 30 (by decide) rfl).1

/-- Claim C3: `checkErrorTime key dur` is true iff no entry exists for the
key or the entry instant plus the duration is not after the current time;
`canSendMail` is the conjunction of the general-key check over one minute
and the message-key check over ten minutes; the general key is "general"
and the minute is its Go nanosecond value. -/
theorem checkErrorTime_canSendMail_spec :
    (∀ (es : MailErrStore) (key : String) (dur now : Nat),
      checkErrorTime es key dur now = true ↔
        (es.errToTime key = none ∨ ∃ t, es.errToTime key = some t ∧ ¬ now < t + dur)) ∧
    (∀ (es : MailErrStore) (entry : Entry) (now : Nat),
      canSendMail es entry now = true ↔
        (checkErrorTime es es.generalErr timeMinute now = true ∧
         checkErrorTime es entry.message (10 * timeMinute) now = true)) ∧
    errStoreInit.generalErr = "general" ∧ timeMinute = 60000000000 := by
  refine ⟨fun es key dur now => ?_, fun es entry now => ?_, rfl, rfl⟩
  · unfold checkErrorTime
    cases h : es.errToTime key with
    | none => simp
    | some t =>
      by_cases hlt : now < t + dur
      · simp [hlt]
      · simp [hlt]
        omega
  · unfold canSendMail
    cases h1 : checkErrorTime es es.generalErr timeMinute now <;>
      cases h2 : checkErrorTime es entry.message (10 * timeMinute) now <;> simp

/-- Claim C4, counterexample: starting from the logrus defaults (stderr
output, info level, no hooks), a setup whose mail-endpoint dial fails
returns that error yet has already redirected the output to stdout, set
the level to debug and registered the stderr hook, contrary to "none of
the mutations applied". -/
theorem setupFailureLeavesPartialState :
    (usefulSetupLogrus envMailFail st0 "mail.host:25" "text" "debug" "app" "a@b.c" "d@e.f").1
        = some SetupErr.dialErr ∧
    (usefulSetupLogrus envMailFail st0 "mail.host:25" "text" "debug" "app" "a@b.c" "d@e.f").2
        ≠ st0 ∧
    (usefulSetupLogrus envMailFail st0 "mail.host:25" "text" "debug" "app" "a@b.c" "d@e.f").2.out
        = OutStream.stdout ∧
    (usefulSetupLogrus envMailFail st0 "mail.host:25" "text" "debug" "app" "a@b.c" "d@e.f").2.level
        = Level.debug ∧
    (usefulSetupLogrus envMailFail st0 "mail.host:25" "text" "debug" "app" "a@b.c" "d@e.f").2.hooks
        = [HookKind.stderrHook] := by
  refine ⟨rfl, by decide, rfl, rfl, rfl⟩

/-- Claim C4, amended: when `UsefulSetupLogrus` fails, the formatter is
unchanged and no mail hook has been registered, but the output has always
already been redirected to stdout, and depending on the failing step the
level may have been set (to the parsed level) and the stderr hook may have
been registered. -/
theorem setupFailure_partialMutations :
    ∀ (env : SetupEnv) (st : LoggerState) (hp fmt lvl app snd rcp : String)
      (e : SetupErr) (st' : LoggerState),
      usefulSetupLogrus env st hp fmt lvl app snd rcp = (some e, st') →
      st'.formatter = st.formatter ∧ st'.out = OutStream.stdout ∧
      (st'.hooks = st.hooks ∨ st'.hooks = st.hooks ++ [HookKind.stderrHook]) ∧
      (st'.level = st.level ∨ env.parseLevel lvl = some st'.level) := by
  intro env st hp fmt lvl app snd rcp e st' h
  unfold usefulSetupLogrus at h
  cases hsp : env.splitHostPort hp with
  | none =>
    rw [hsp] at h
    simp only at h
    obtain ⟨-, h2⟩ := Prod.mk.injEq .. ▸ h
    subst h2
    exact ⟨rfl, rfl, Or.inl rfl, Or.inl rfl⟩
  | some hostPort =>
    rw [hsp] at h
    simp only at h
    cases hat : env.atoi hostPort.2 with
    | none =>
      rw [hat] at h
      simp only at h
      obtain ⟨-, h2⟩ := Prod.mk.injEq .. ▸ h
      subst h2
      exact ⟨rfl, rfl, Or.inl rfl, Or.inl rfl⟩
    | some port =>
      rw [hat] at h
      simp only at h
      cases hpl : env.parseLevel lvl with
      | none =>
        rw [hpl] at h
        simp only at h
        obtain ⟨-, h2⟩ := Prod.mk.injEq .. ▸ h
        subst h2
        exact ⟨rfl, rfl, Or.inl rfl, Or.inl rfl⟩
      | some l =>
        rw [hpl] at h
        simp only at h
        cases hmh : newMailHook env.net app hostPort.1 port snd rcp with
        | error me =>
          rw [hmh] at h
          simp only at h
          obtain ⟨-, h2⟩ := Prod.mk.injEq .. ▸ h
          subst h2
          exact ⟨rfl, rfl, Or.inr rfl, Or.inr rfl⟩
        | ok mh =>
          rw [hmh] at h
          simp only at h
          split at h <;> simp at h

/-- Claim C4, witness: concrete instantiation of the amended theorem at the
failing-dial setup environment. -/
theorem setupFailure_partialMutations_witness :
    (usefulSetupLogrus envMailFail st0 "mail.host:25" "text" "debug" "app" "a@b.c" "d@e.f").2.formatter
        = st0.formatter ∧
    (usefulSetupLogrus envMailFail st0 "mail.host:25" "text" "debug" "app" "a@b.c" "d@e.f").2.out
        = OutStream.stdout ∧
    ((usefulSetupLogrus envMailFail st0 "mail.host:25" "text" "debug" "app" "a@b.c" "d@e.f").2.hooks
        = st0.hooks ∨
     (usefulSetupLogrus envMailFail st0 "mail.host:25" "text" "debug" "app" "a@b.c" "d@e.f").2.hooks
        = st0.hooks ++ [HookKind.stderrHook]) ∧
    ((usefulSetupLogrus envMailFail st0 "mail.host:25" "text" "debug" "app" "a@b.c" "d@e.f").2.level
        = st0.level ∨
     envMailFail.parseLevel "debug"
        = some (usefulSetupLogrus envMailFail st0 "mail.host:25" "text" "debug" "app" "a@b.c" "d@e.f").2.level) :=
  setupFailure_partialMutations envMailFail st0 "mail.host:25" "text" "debug" "app" "a@b.c" "d@e.f"
    SetupErr.dialErr
    (usefulSetupLogrus envMailFail st0 "mail.host:25" "text" "debug" "app" "a@b.c" "d@e.f").2
    (by decide)

/-- Claim C5: all three hooks return the eligible-severity set
warn, error, fatal, panic from Levels, and the dispatcher (which fires a
hook iff the entry level is in that list) fires none of them on info,
debug or trace. -/
theorem levels_spec :
    (∀ s : Level,
      (s ∈ mailHookLevels ↔
        (s = Level.warn ∨ s = Level.error ∨ s = Level.fatal ∨ s = Level.panic)) ∧
      (s ∈ mailAuthHookLevels ↔ s ∈ mailHookLevels) ∧
      (s ∈ stderrHookLevels ↔ s ∈ mailHookLevels)) ∧
    hookFires mailHookLevels Level.info = false ∧
    hookFires mailHookLevels Level.debug = false ∧
    hookFires mailHookLevels Level.trace = false ∧
    hookFires mailAuthHookLevels Level.info = false ∧
    hookFires mailAuthHookLevels Level.debug = false ∧
    hookFires mailAuthHookLevels Level.trace = false ∧
    hookFires stderrHookLevels Level.info = false ∧
    hookFires stderrHookLevels Level.debug = false ∧
    hookFires stderrHookLevels Level.trace = false := by
  refine ⟨fun s => ?_, rfl, rfl, rfl, rfl, rfl, rfl, rfl, rfl, rfl⟩
  cases s <;> simp [mailHookLevels, mailAuthHookLevels, stderrHookLevels]

/-- Claim C6: `createMessage` assembles exactly the subject
"appName - levelString" and the body with the formatted time after TIME,
the message after MESSAGE, the indented JSON field dump after DATA and the
stack trace text for every severity; on the round-trip example entry
(fields user = "a", count = 3, appName "svc", level error) the subject is
"svc - error" and the body contains the four literal substrings. -/
theorem createMessage_spec :
    (∀ (e : Entry) (a st : String),
      createMessage e a st =
        "Subject: " ++ (a ++ " - " ++ levelString e.level) ++ "\r\n\r\n" ++
        ("TIME: " ++ formatTime e.time ++ "\n" ++
         "MESSAGE: " ++ e.message ++ "\n\n" ++
         "DATA: " ++ marshalIndent e.data ++ "\n\n" ++
         "STACKTRACE: \n" ++ st)) ∧
    strContains (createMessage exEntryRt "svc" exStack) "Subject: svc - error\r\n\r\n" = true ∧
    strContains (createMessage exEntryRt "svc" exStack) "TIME:" = true ∧
    strContains (createMessage exEntryRt "svc" exStack) "MESSAGE:" = true ∧
    strContains (createMessage exEntryRt "svc" exStack) "\"user\": \"a\"" = true ∧
    strContains (createMessage exEntryRt "svc" exStack) "\"count\": 3" = true ∧
    strContains (createMessage exEntryRt "svc" exStack) exStack = true :=
  ⟨fun _ _ _ => rfl, by decide, by decide, by decide, by decide, by decide, by decide⟩

/-- Claim C7: `NewMailHook` fails exactly when the construction-time dial
fails or one of the two addresses does not parse, and on success returns
the hook carrying exactly the given application name, host, port, sender
and recipient. -/
theorem newMailHook_spec :
    ∀ (net : NetEnv) (a h : String) (p : Nat) (s r : String),
      ((∃ e, newMailHook net a h p s r = Except.error e) ↔
        (net.dialOk h p = false ∨ net.validAddr s = false ∨ net.validAddr r = false)) ∧
      (net.dialOk h p = true → net.validAddr s = true → net.validAddr r = true →
        newMailHook net a h p s r =
          Except.ok { appName := a, host := h, port := p, sender := s, recipient := r }) := by
  intro net a h p s r
  unfold newMailHook checkMailHookParams
  cases hd : net.dialOk h p <;> cases hs : net.validAddr s <;> cases hr : net.validAddr r <;>
    simp

/-- Claim C7, witness: with a reachable endpoint and valid addresses the
constructor returns the hook with the given configuration. -/
theorem newMailHook_spec_witness :
    newMailHook ⟨fun _ _ => true, fun _ => true⟩ "svc" "mail.host" 25 "a@b.c" "d@e.f" =
      Except.ok
        { appName := "svc", host := "mail.host", port := 25,
          sender := "a@b.c", recipient := "d@e.f" } :=
  (newMailHook_spec ⟨fun _ _ => true, fun _ => true⟩ "svc" "mail.host" 25 "a@b.c" "d@e.f").2
    rfl rfl rfl

/-- Claim C8, counterexample: on a suppressed entry `MailHook.Fire` does
not return nil when the dial itself fails: it returns the dial error (the
dial precedes the suppression check), contrary to "Fire returns nil". -/
theorem suppressedFireDialError :
    canSendMail esSup exEntry 30 = false ∧
    (mailHookFire envDialFail exEntry esSup 30).1 = Except.error FireErr.dialErr ∧
    (Except.error FireErr.dialErr : Except FireErr Unit) ≠ Except.ok () := by
  refine ⟨by decide, rfl, by simp⟩

/-- Claim C8, amended: a suppression miss is a silent no-op that leaves the
store untouched: `MailAuthHook.Fire` returns nil unconditionally, and
`MailHook.Fire` returns nil provided the initial dial succeeds (a failing
dial returns the dial error, still leaving the store unchanged). -/
theorem suppressedFire_silent :
    ∀ (env : SmtpEnv) (e : Entry) (es : MailErrStore) (t : Nat),
      canSendMail es e t = false →
      mailAuthHookFire env e es t = (Except.ok (), es, []) ∧
      (env.dialOk = true →
        mailHookFire env e es t = (Except.ok (), es, [SmtpAction.dial, SmtpAction.close])) ∧
      (env.dialOk = false →
        mailHookFire env e es t = (Except.error FireErr.dialErr, es, [SmtpAction.dial])) := by
  intro env e es t hcan
  refine ⟨?_, fun hd => ?_, fun hd => ?_⟩
  · simp [mailAuthHookFire, hcan]
  · simp [mailHookFire, hcan, hd]
  · simp [mailHookFire, hcan, hd]

/-- Claim C8, witness: concrete instantiation of the amended theorem at a
store whose general key was stamped 30 ns earlier. -/
theorem suppressedFire_silent_witness :
    mailAuthHookFire envAllOk exEntry esSup 30 = (Except.ok (), esSup, []) :=
  (suppressedFire_silent envAllOk exEntry esSup 30 (by decide)).1

/-- Claim C9, counterexample: when the text formatter fails,
`StderrHook.Fire` returns the formatting error rather than nil, so Fire
does not always return nil and formatting is a second possible failure
besides the write. -/
theorem stderrFireFormatError :
    (stderrHookFire envFmtFail "stack").1 = Except.error "format failure" ∧
    (stderrHookFire envFmtFail "stack").1 ≠ Except.ok () ∧
    (stderrHookFire envFmtFail "stack").2 = [] := by
  refine ⟨rfl, ?_, rfl⟩
  simp [stderrHookFire, envFmtFail]

/-- Claim C9, amended: `StderrHook.Fire` returns nil whenever the formatter
succeeds — the stderr write outcome is ignored (a write failure is
swallowed, and the result does not depend on it at all) — but a formatter
error is returned to the caller. -/
theorem stderrFire_spec :
    ∀ (env : StderrEnv) (stack : String),
      (∀ line, env.formatResult = Except.ok line →
        stderrHookFire env stack = (Except.ok (), [line ++ stack])) ∧
      (∀ msg, env.formatResult = Except.error msg →
        stderrHookFire env stack = (Except.error msg, [])) ∧
      (∀ w, stderrHookFire { env with writeOk := w } stack = stderrHookFire env stack) := by
  intro env stack
  refine ⟨fun line hline => ?_, fun msg hmsg => ?_, fun w => rfl⟩
  · simp [stderrHookFire, hline]
  · simp [stderrHookFire, hmsg]

/-- Claim C9, witness: concrete instantiation of the amended theorem at a
succeeding formatter and a failing write. -/
theorem stderrFire_spec_witness :
    stderrHookFire ⟨Except.ok "line ", false⟩ "stack" = (Except.ok (), ["line " ++ "stack"]) :=
  (stderrFire_spec ⟨Except.ok "line ", false⟩ "stack").1 "line " rfl

/-- Claim C10: both Fire methods act on the one process-wide store: after
a fully successful `MailHook.Fire`, any entry is suppressed for the other
hook within the 1-minute global window (`MailAuthHook.Fire` becomes a
silent no-op on it), an entry with the same message text is suppressed
within the 10-minute window, and symmetrically after `MailAuthHook.Fire`
marks, `MailHook.Fire` is suppressed within the global window. -/
theorem sharedStoreCrossSuppression :
    ∀ (envA envB : SmtpEnv) (e e2 : Entry) (es : MailErrStore) (t t' : Nat),
      canSendMail es e t = true →
      envA.dialOk = true → envA.mailOk = true → envA.rcptOk = true →
      envA.dataOk = true → envA.writeOk = true →
      (t' < t + timeMinute →
        canSendMail (mailHookFire envA e es t).2.1 e2 t' = false ∧
        mailAuthHookFire envB e2 (mailHookFire envA e es t).2.1 t' =
          (Except.ok (), (mailHookFire envA e es t).2.1, [])) ∧
      (e2.message = e.message → t' < t + 10 * timeMinute →
        canSendMail (mailHookFire envA e es t).2.1 e2 t' = false) ∧
      (t' < t + timeMinute →
        canSendMail (mailAuthHookFire envB e es t).2.1 e2 t' = false ∧
        mailHookFire envA e2 (mailAuthHookFire envB e es t).2.1 t' =
          (Except.ok (), (mailAuthHookFire envB e es t).2.1,
            [SmtpAction.dial, SmtpAction.close])) := by
  intro envA envB e e2 es t t' hcan hd hm hr hdata hw
  have hA : (mailHookFire envA e es t).2.1 = markErrAsSent es e.message t :=
    mailHookFire_store_after_data envA e es t hcan hd hm hr hdata
  have hB : (mailAuthHookFire envB e es t).2.1 = markErrAsSent es e.message t :=
    mailAuthHookFire_store_marked envB e es t hcan
  refine ⟨fun hlt => ?_, fun hmsg hlt => ?_, fun hlt => ?_⟩
  · have hsupp : canSendMail (mailHookFire envA e es t).2.1 e2 t' = false := by
      rw [hA]
      exact canSendMail_markErrAsSent_global es e.message e2 t t' hlt
    exact ⟨hsupp, by simp [mailAuthHookFire, hsupp]⟩
  · rw [hA]
    exact canSendMail_markErrAsSent_msg es e.message e2 t t' hmsg hlt
  · have hsupp : canSendMail (mailAuthHookFire envB e es t).2.1 e2 t' = false := by
      rw [hB]
      exact canSendMail_markErrAsSent_global es e.message e2 t t' hlt
    exact ⟨hsupp, by simp [mailHookFire, hsupp, hd]⟩

/-- Claim C10, witness: concrete instantiation — a successful unauthenti-
cated send at instant 0 suppresses the authenticated hook at instant 0. -/
theorem sharedStoreCrossSuppression_witness :
    canSendMail (mailHookFire envAllOk exEntry errStoreInit 0).2.1 exEntry 0 = false ∧
    mailAuthHookFire envAllOk exEntry (mailHookFire envAllOk exEntry errStoreInit 0).2.1 0 =
      (Except.ok (), (mailHookFire envAllOk exEntry errStoreInit 0).2.1, []) :=
  (sharedStoreCrossSuppression envAllOk envAllOk exEntry exEntry errStoreInit 0 0
    (by decide) rfl rfl rfl rfl rfl).1 (by decide)

end LogHooks
